import Mathlib

/-!
Verification of the raw-mode terminal input editor of `gtp-oss`.

This file shallowly embeds the two components the frozen claims are about:

* `src/src/utils/input_history.py` — the `InputHistory` class (a bounded
  deque of trimmed submissions plus a navigation offset), and
* `src/src/utils/terminal_input.py` — the event loop of
  `TerminalInputHandler.get_multiline_input`, modelled as a step function
  over an explicit editor state that consumes one input byte at a time and
  records, as explicit traces, the terminal-mode transitions
  (raw/cooked), the palette-hook invocations, and the final
  cursor-positioning instruction of every repaint.

Python strings are modelled as `List Char` / `String`; `str.strip()` is
modelled for the ASCII whitespace characters it strips.
-/

/-- The characters Python's `str.strip()` removes (ASCII subset). -/
def isPySpace (c : Char) : Bool :=
  c = ' ' || c = '\t' || c = '\n' || c = '\r' || c = '\x0b' || c = '\x0c'

/-- Python `str.strip()` on a character list. -/
def stripList (cs : List Char) : List Char :=
  ((cs.dropWhile isPySpace).reverse.dropWhile isPySpace).reverse

/-- Python `str.strip()`. -/
def pyStrip (s : String) : String :=
  ⟨stripList s.data⟩

/-- Python `text.split('\n')[-1]`: the text after the last newline. -/
def lastLine (cs : List Char) : List Char :=
  ((cs.reverse.takeWhile (fun c => !(c = '\n'))).reverse)

/-- `InputHistory` (`src/src/utils/input_history.py`): a bounded deque of
previously submitted trimmed strings (most recent last), a navigation
position (`0` = live edge) and the snapshot of the live input taken when
navigation begins. -/
structure InputHistory where
  max_entries : Nat
  history : List String
  position : Nat
  original_input : String
deriving Repr, DecidableEq

namespace InputHistory

/-- `InputHistory(max_entries)` constructor. -/
def init (cap : Nat) : InputHistory :=
  { max_entries := cap, history := [], position := 0, original_input := "" }

/-- `collections.deque(maxlen = m).append x`: append, dropping from the left
when the deque is full. -/
def dequeAppend (m : Nat) (hs : List String) (x : String) : List String :=
  if m < (hs ++ [x]).length then (hs ++ [x]).drop ((hs ++ [x]).length - m)
  else hs ++ [x]

/-- `reset_position`. -/
def reset_position (h : InputHistory) : InputHistory :=
  { h with position := 0, original_input := "" }

/-- `add_entry`. -/
def add_entry (h : InputHistory) (input_text : String) : InputHistory :=
  if pyStrip input_text = "" then h
  else if h.history ≠ [] ∧ h.history.getLast? = some (pyStrip input_text) then h
  else
    reset_position
      { h with history := dequeAppend h.max_entries h.history (pyStrip input_text) }

/-- `get_previous(current_input)`: returns the entry (or `none`) and the
updated history state.  `self.history[-(self.position)]` is modelled by
`List.getD` at index `length - position`.  When `position = 0` the source
snapshots `current_input` and then always takes the `position < len`
branch (the history is non-empty, so `0 < len`); the two updates are
merged here. -/
def get_previous (h : InputHistory) (current_input : String) :
    Option String × InputHistory :=
  if h.history = [] then (none, h)
  else if h.position = 0 then
    (some (h.history.getD (h.history.length - 1) ""),
     { h with original_input := current_input, position := 1 })
  else if h.position < h.history.length then
    (some (h.history.getD (h.history.length - (h.position + 1)) ""),
     { h with position := h.position + 1 })
  else (none, h)

/-- `get_next()`: the position is decremented first; at `0` the saved
live snapshot is returned, otherwise the entry at the new offset. -/
def get_next (h : InputHistory) : Option String × InputHistory :=
  if h.position = 0 then (none, h)
  else if h.position - 1 = 0 then
    (some h.original_input, { h with position := h.position - 1 })
  else
    (some (h.history.getD (h.history.length - (h.position - 1)) ""),
     { h with position := h.position - 1 })

/-- `clear`. -/
def clear (h : InputHistory) : InputHistory :=
  reset_position { h with history := [] }

/-- `get_entry_count` / `__len__`. -/
def get_entry_count (h : InputHistory) : Nat :=
  h.history.length

end InputHistory

/-!
## The raw-mode event loop of `get_multiline_input`

`TerminalInputHandler.get_multiline_input` (terminal_input.py, lines
16-303) is a single-threaded event loop reading one byte at a time.  We
model it as a step function over an explicit state.  Effects are recorded
explicitly:

* terminal mode: `termios.tcsetattr(fd, ..., old_settings)` and
  `tty.setraw(fd)` act on the process-wide terminal mode; we track the
  mode (`raw : Bool`) and count the raw↔cooked *transitions*
  (`acq`/`rel`); re-applying the saved cooked settings while already
  cooked is idempotent on the mode and is not counted as a release.
* repaints: every repaint path of the source ends with a
  cursor-positioning write `\x1b[{col}G` (or the echo/`\b \b` relative
  moves, which emit no column instruction).  Each emitted column
  instruction is recorded as a `Repaint` event carrying the column (the
  1-based ANSI parameter exactly as the source computes it), the live
  `buffer` local, and `self._current_buffer` (`tracked`) at emission.
  The source keeps `_current_buffer` aliased to `buffer` except across
  the rebinding `buffer = []` on a whitespace-only Enter (line 182),
  which is not followed by a sync, so `tracked` can lag `buffer`.
* palette hook: `self.cli._open_command_palette()` is an external
  collaborator; its successive results are supplied as a queue of
  `HookRes` values (`exit`, `cont`, or `fail` = raises an `Exception`,
  which the source catches at line 163).
* unexpected faults: an `Exception` raised at the start of iteration `n`
  of the loop is injected via `faultAt = some n`; it propagates through
  the `finally` (restoring the terminal) to the outer
  `except Exception` fallback path.
-/

/-- Result of one palette-hook invocation. -/
inductive HookRes
  | cont
  | exit
  | fail
deriving Repr, DecidableEq

/-- Which repaint path emitted a cursor-column instruction. -/
inductive RKind
  | help      -- `_print_help_message` (line 316)
  | escHint   -- `_show_esc_reset_message` (line 398)
  | ctrlcArm  -- first Ctrl+C, quit confirmation (line 127)
  | ctrlcRst  -- `_reset_ctrl_c_state_and_restore_help` (line 385)
  | ctrlJ     -- Ctrl+J newline repaint (line 208)
  | bsPop     -- backspace popping an embedded newline (line 233)
deriving Repr, DecidableEq

/-- A recorded cursor-positioning instruction: the 1-based ANSI column
written, together with the live buffer and the `_current_buffer`
snapshot at the moment of emission. -/
structure Repaint where
  kind : RKind
  col : Nat
  live : List Char
  tracked : List Char
deriving Repr, DecidableEq

/-- Editor-local state: the buffer and flags of the event loop, the
`_current_buffer` snapshot, the history, the palette-hook queue and the
recorded repaint trace. -/
structure Ed where
  buffer : List Char
  tracked : List Char
  ctrlC : Bool        -- ctrl_c_pressed_once
  escReset : Bool     -- esc_reset_pending
  pendingEsc : Bool   -- pending_esc
  pendingBracket : Bool
    -- the source has read `ESC [` and is blocked in the inner
    -- `sys.stdin.read(1)` (line 70) waiting for the final byte
  hist : InputHistory
  hookQueue : List HookRes
  hookCalls : Nat
  repaints : List Repaint
  iter : Nat
  faultAt : Option Nat
deriving Repr, DecidableEq

/-- Terminal-mode state: current mode and transition counts. -/
structure Term where
  raw : Bool
  acq : Nat
  rel : Nat
deriving Repr, DecidableEq

/-- Full machine state. -/
structure M where
  ed : Ed
  term : Term
deriving Repr, DecidableEq

/-- How `get_multiline_input` left the raw-mode path. -/
inductive Outcome
  | submitted (s : String)  -- `return content` (line 303)
  | emptyCancelled          -- `return None` for a blank submission (line 299)
  | paletteExit             -- `return None` after the hook said "exit" (line 155)
  | interrupted             -- `KeyboardInterrupt` re-raised (line 284)
  | fallback                -- unexpected fault: `except Exception` fallback (line 285)
  | blocked                 -- input exhausted while waiting for a byte
deriving Repr, DecidableEq

/-- Outcome plus final machine state. -/
structure RunResult where
  outcome : Outcome
  m : M
deriving Repr, DecidableEq

/-- `termios.tcsetattr(fd, TCSADRAIN, old_settings)`: a raw→cooked
transition when the terminal is raw, otherwise idempotent. -/
def restoreMode (t : Term) : Term :=
  if t.raw then { raw := false, acq := t.acq, rel := t.rel + 1 } else t

/-- `tty.setraw(fd)`: a cooked→raw transition when cooked. -/
def setRawMode (t : Term) : Term :=
  if t.raw then t else { raw := true, acq := t.acq + 1, rel := t.rel }

/-- Record a cursor-positioning instruction. -/
def emitR (k : RKind) (col : Nat) (e : Ed) : Ed :=
  { e with repaints := e.repaints ++ [{ kind := k, col := col, live := e.buffer, tracked := e.tracked }] }

/-- `_print_help_message`: final column `4 + len(last line of _current_buffer)`
(line 315). -/
def printHelp (e : Ed) : Ed :=
  emitR .help (4 + (lastLine e.tracked).length) e

/-- `_show_esc_reset_message`: column `4 + len(last line of _current_buffer)`
(line 397). -/
def showEscHint (e : Ed) : Ed :=
  emitR .escHint (4 + (lastLine e.tracked).length) e

/-- `_reset_ctrl_c_state_and_restore_help` followed by the
`self._current_buffer = buffer` sync (lines 133-135): the column is
`len(">> " + ''.join(_current_buffer)) + 1` over the whole snapshot. -/
def resetCtrl (e : Ed) : Ed :=
  let e := emitR .ctrlcRst (e.tracked.length + 4) e
  { e with ctrlC := false, tracked := e.buffer }

/-- `_reset_esc_state_and_restore_help` followed by the
`self._current_buffer = buffer` sync (lines 139-141 and 77-78). -/
def resetEscHelp (e : Ed) : Ed :=
  let e := printHelp e
  { e with escReset := false, tracked := e.buffer }

/-- `_clear_current_input_and_redraw` (lines 325-342): fresh empty buffer,
`_current_buffer` rebound to it, prompt and help repainted. -/
def clearInputRedraw (e : Ed) : Ed :=
  printHelp { e with buffer := [], tracked := [] }

/-- `_replace_buffer_with_history` (lines 344-375). -/
def replaceWithHistory (s : String) (e : Ed) : Ed :=
  printHelp { e with buffer := s.data, tracked := s.data }

/-- In-place `buffer.append(ch)` followed by the
`self._current_buffer = buffer` sync. -/
def appendSync (c : Char) (e : Ed) : Ed :=
  { e with buffer := e.buffer ++ [c], tracked := e.buffer ++ [c] }

/-- In-place `buffer.pop()` followed by the `self._current_buffer = buffer`
sync. -/
def popSync (e : Ed) : Ed :=
  { e with buffer := e.buffer.dropLast, tracked := e.buffer.dropLast }

/-- Dequeue the next palette-hook result (defaulting to `cont`). -/
def popHook (e : Ed) : HookRes × Ed :=
  match e.hookQueue with
  | [] => (.cont, e)
  | r :: q => (r, { e with hookQueue := q })

/-- Result of processing one byte. -/
inductive Step
  | done (o : Outcome) (m : M)
  | cont (m : M)
deriving Repr, DecidableEq

/-- Backspace on an embedded newline (lines 221-235): pop the newline,
reposition at the end of the previous line (line 233), then repaint the
help line. -/
def bsPopRepaint (e : Ed) : Ed :=
  printHelp (emitR .bsPop (4 + (lastLine (popSync e).buffer).length) (popSync e))

/-- Lines 131-135: clear an armed Ctrl+C latch on any non-interrupt
byte. -/
def ctrlLatchReset (e : Ed) : Ed :=
  if e.ctrlC then resetCtrl e else e

/-- Lines 137-141: clear an armed ESC latch on any non-ESC byte. -/
def escLatchReset (c : Char) (e : Ed) : Ed :=
  if e.escReset ∧ c ≠ '\x1b' then resetEscHelp e else e

/-- Key dispatch, terminal_input.py lines 143-269: the slash, Enter,
Ctrl+J, backspace, plain-ESC and printable handlers, run after the
armed latches have been cleared. -/
def dispatchKey (c : Char) (m : M) : Step :=
  if c = '/' ∧ m.ed.buffer = [] then
    -- lines 143-170: command palette
    match popHook m.ed with
    | (.exit, e2) =>
      .done .paletteExit
        { ed := { e2 with hookCalls := e2.hookCalls + 1 },
          term := restoreMode (restoreMode m.term) }
    | (_, e2) =>
      .cont { ed := printHelp { e2 with hookCalls := e2.hookCalls + 1 },
              term := setRawMode (restoreMode m.term) }
  else if c = '\r' then
    -- lines 172-188: submit or clear
    if stripList m.ed.buffer = [] then
      .cont { m with ed := { m.ed with buffer := [] } }
    else
      -- break out of the loop; the finally restores; lines 296-303 run
      if pyStrip (String.mk m.ed.buffer) = "" then
        .done .emptyCancelled { ed := m.ed, term := restoreMode m.term }
      else
        .done (.submitted (String.mk m.ed.buffer))
          { ed := { m.ed with hist := m.ed.hist.add_entry (String.mk m.ed.buffer) },
            term := restoreMode m.term }
  else if c = '\x0a' then
    -- lines 190-211: Ctrl+J newline
    if lastLine m.ed.buffer ≠ [] then
      .cont { m with ed := emitR .ctrlJ 4 (appendSync '\x0a' m.ed) }
    else .cont m
  else if c = '\x7f' ∨ c = '\x08' then
    -- lines 213-244: backspace
    if m.ed.buffer = [] then .cont m
    else if m.ed.buffer.getLast? = some '\x0a' ∨ lastLine m.ed.buffer = [] then
      if m.ed.buffer.getLast? = some '\x0a' then
        .cont { m with ed := bsPopRepaint m.ed }
      else .cont m
    else .cont { m with ed := popSync m.ed }
  else if c = '\x1b' then
    -- lines 246-260: plain ESC
    if stripList m.ed.buffer ≠ [] then
      if m.ed.escReset then
        .cont { m with ed := { clearInputRedraw m.ed with escReset := false, pendingEsc := true } }
      else
        .cont { m with ed := { showEscHint { m.ed with escReset := true } with pendingEsc := true } }
    else .cont { m with ed := { m.ed with pendingEsc := true } }
  else
    -- lines 262-269: printable byte
    .cont { m with ed := appendSync c { m.ed with hist := m.ed.hist.reset_position } }

/-- The body of the event loop from the Ctrl+C check on (terminal_input.py
lines 110-141), reached directly or by fall-through from the pending-ESC
handling: the two-step quit, then clearing armed latches, then
`dispatchKey`. -/
def normalHandle (c : Char) (m : M) : Step :=
  if c = '\x03' then
    -- lines 110-129: two-step quit
    if m.ed.ctrlC then
      .done .interrupted { m with term := restoreMode (restoreMode m.term) }
    else
      .cont { m with ed := emitR .ctrlcArm (m.ed.buffer.length + 4) { m.ed with ctrlC := true } }
  else
    -- lines 131-141: clear armed latches on other keys
    dispatchKey c { m with ed := escLatchReset c (ctrlLatchReset m.ed) }

/-- The arrow-key branch (lines 68-97): the final byte of an `ESC [ x`
sequence has been read. -/
def handleArrow (f : Char) (m : M) : M :=
  let e := m.ed
  let e :=
    if f = 'A' then
      let p := e.hist.get_previous (String.mk e.buffer)
      let e := { e with hist := p.2 }
      let e := match p.1 with
        | some s => replaceWithHistory s e
        | none => e
      if e.escReset then resetEscHelp e else e
    else if f = 'B' then
      let p := e.hist.get_next
      let e := { e with hist := p.2 }
      let e := match p.1 with
        | some s => replaceWithHistory s e
        | none => replaceWithHistory "" e
      if e.escReset then resetEscHelp e else e
    else
      if e.escReset then resetEscHelp e else e
  { m with ed := e }

/-- Process one byte.  If the previous byte was `ESC [`
(`pendingBracket`), this byte is the final byte of the escape sequence
read by the inner `sys.stdin.read(1)` (line 70).  Otherwise the
pending-ESC disambiguation (lines 66-108) runs, falling through into
`normalHandle`. -/
def processByte (c : Char) (m : M) : Step :=
  if m.ed.pendingBracket then
    .cont (handleArrow c { m with ed := { m.ed with pendingBracket := false } })
  else if m.ed.pendingEsc then
    let m := { m with ed := { m.ed with pendingEsc := false } }
    if c = '[' then .cont { m with ed := { m.ed with pendingBracket := true } }
    else if c = '\x1b' ∧ stripList m.ed.buffer ≠ [] ∧ m.ed.escReset then
      -- lines 101-107: double-ESC reset inside the pending state
      .cont { m with ed := { clearInputRedraw m.ed with escReset := false } }
    else normalHandle c m
  else normalHandle c m

/-- Advance the loop-iteration counter (used only by the fault-injection
model). -/
def tick (m : M) : M :=
  { m with ed := { m.ed with iter := m.ed.iter + 1 } }

/-- The event loop (`while True:` at line 60), consuming the input byte
stream.  Exhausted input while the source would block on
`sys.stdin.read(1)` yields `Outcome.blocked`. -/
def eventLoop : List Char → M → RunResult
  | [], m => { outcome := .blocked, m := m }
  | c :: rest, m =>
    if m.ed.faultAt = some m.ed.iter then
      { outcome := .fallback, m := { m with term := restoreMode m.term } }
    else
      match processByte c (tick m) with
      | .done o m' => { outcome := o, m := m' }
      | .cont m' => eventLoop rest m'

/-- Initial editor state of one `get_multiline_input(prefill)` call. -/
def initEd (prefill : String) (hooks : List HookRes) (faultAt : Option Nat) : Ed :=
  { buffer := prefill.data, tracked := prefill.data, ctrlC := false,
    escReset := false, pendingEsc := false, pendingBracket := false,
    hist := InputHistory.init 100, hookQueue := hooks, hookCalls := 0,
    repaints := [], iter := 0, faultAt := faultAt }

/-- `get_multiline_input(prefill)` on the raw-mode path: enter raw mode,
paint the prompt and help line, then run the event loop. -/
def get_multiline_input (prefill : String) (input : List Char)
    (hooks : List HookRes) (faultAt : Option Nat) : RunResult :=
  let m : M := { ed := initEd prefill hooks faultAt, term := { raw := false, acq := 0, rel := 0 } }
  let m := { m with term := setRawMode m.term }
  let m := { m with ed := printHelp m.ed }
  eventLoop input m

/-!
## Derived notions used by the claims
-/

/-- A sequence of `add_entry` calls. -/
def addAll (ts : List String) (h : InputHistory) : InputHistory :=
  ts.foldl (fun h t => h.add_entry t) h

/-- A sequence of `get_previous` calls, one live-text argument per call. -/
def applyPrevList (ls : List String) (h : InputHistory) : InputHistory :=
  ls.foldl (fun h l => (h.get_previous l).2) h

/-- `k` successive `get_next` calls. -/
def applyNextN : Nat → InputHistory → InputHistory
  | 0, h => h
  | k + 1, h => applyNextN k h.get_next.2

/-- The `InputHistory` structural invariant: the navigation position never
exceeds the number of stored entries, which never exceeds the capacity
(positions are `Nat`, so `0 ≤ position` is implicit). -/
def InputHistory.Inv (h : InputHistory) : Prop :=
  h.position ≤ h.history.length ∧ h.history.length ≤ h.max_entries

/-- The repaint-column property: whenever the `_current_buffer` snapshot
agrees with the live buffer and the buffer is single-line, the emitted
cursor column is the content length plus the four-column 1-based offset
of the three-character `">> "` marker (content starts at 0-based
column 3). -/
def RepOK (ev : Repaint) : Prop :=
  ev.tracked = ev.live → ev.live.contains '\n' = false →
    ev.col = ev.live.length + 4

/-- The repaint-column formula the spec states: content allegedly starts
at 0-based column 2 behind a two-character marker, so the 1-based column
parameter would be the last-line length plus 3. -/
def SpecRepCol (ev : Repaint) : Prop :=
  ev.col = (lastLine ev.live).length + 3

/-- Loop invariant for the terminal mode: inside the loop the terminal is
raw and exactly one more raw-entry than raw-exit transition has
happened. -/
def TermInv (m : M) : Prop :=
  m.term.raw = true ∧ m.term.acq = m.term.rel + 1

/-- Exit condition for the terminal mode: cooked, with matching
transition counts. -/
def TermDone (m : M) : Prop :=
  m.term.raw = false ∧ m.term.acq = m.term.rel

/-- All recorded repaints satisfy the column property. -/
def AllOK (e : Ed) : Prop :=
  ∀ ev ∈ e.repaints, RepOK ev

/-- Combined step postcondition used in the loop induction. -/
def StepOK (s : Step) : Prop :=
  (∀ m', s = .cont m' → TermInv m' ∧ AllOK m'.ed) ∧
  (∀ o m', s = .done o m' →
    TermDone m' ∧ AllOK m'.ed ∧ o ≠ .emptyCancelled ∧ o ≠ .blocked ∧
    (∀ t, o = .submitted t → pyStrip t ≠ ""))

/-!
## Lemmas about `InputHistory`
-/

namespace InputHistory

theorem dequeAppend_length_le (m : Nat) (hs : List String) (x : String) :
    (dequeAppend m hs x).length ≤ m := by
  unfold dequeAppend
  split
  next hlt =>
    simp only [List.length_drop, List.length_append, List.length_cons]
    omega
  next hge =>
    simp only [List.length_append, List.length_cons, not_lt] at hge
    simp only [List.length_append, List.length_cons]
    omega

theorem add_entry_position_eq_zero (h : InputHistory) (t : String)
    (hp : h.position = 0) : (h.add_entry t).position = 0 := by
  unfold add_entry
  split
  · exact hp
  · split
    · exact hp
    · rfl

theorem addAll_position_eq_zero (ts : List String) (h : InputHistory)
    (hp : h.position = 0) : (addAll ts h).position = 0 := by
  induction ts generalizing h with
  | nil => exact hp
  | cons t ts ih =>
    exact ih _ (add_entry_position_eq_zero h t hp)

theorem get_previous_snd_of_pos (h : InputHistory) (l : String)
    (h1 : 1 ≤ h.position) (h2 : h.position < h.history.length) :
    (h.get_previous l).2 = { h with position := h.position + 1 } := by
  have hne : ¬ h.history = [] := by
    intro he
    rw [he] at h2
    simp at h2
  have hz : ¬ h.position = 0 := by omega
  simp only [get_previous, hne, ite_false, hz, if_pos h2]

theorem get_previous_snd_of_zero (h : InputHistory) (l : String)
    (h1 : h.position = 0) (h2 : h.history ≠ []) :
    (h.get_previous l).2 = { h with position := 1, original_input := l } := by
  simp only [get_previous, h2, ite_false, h1, ite_true]

theorem applyPrevList_state (ls : List String) (h : InputHistory)
    (h1 : 1 ≤ h.position) (h2 : h.position + ls.length ≤ h.history.length) :
    applyPrevList ls h = { h with position := h.position + ls.length } := by
  induction ls generalizing h with
  | nil =>
    simp [applyPrevList]
  | cons l ls ih =>
    have hlt : h.position < h.history.length := by
      simp only [List.length_cons] at h2
      omega
    have step := get_previous_snd_of_pos h l h1 hlt
    show applyPrevList ls (h.get_previous l).2 = _
    rw [step, ih]
    · simp only [List.length_cons]
      congr 1
      omega
    · simp
    · simp only [List.length_cons] at h2 ⊢
      omega

theorem get_next_snd_of_pos (h : InputHistory) (h1 : 1 ≤ h.position) :
    h.get_next.2 = { h with position := h.position - 1 } := by
  have hz : ¬ h.position = 0 := by omega
  unfold get_next
  simp only [hz, ite_false]
  split <;> rfl

theorem applyNextN_state (k : Nat) (h : InputHistory) (hk : k ≤ h.position) :
    applyNextN k h = { h with position := h.position - k } := by
  induction k generalizing h with
  | zero => simp [applyNextN]
  | succ k ih =>
    show applyNextN k h.get_next.2 = _
    rw [get_next_snd_of_pos h (by omega), ih]
    · simp only
      congr 1
      omega
    · simp
      omega

end InputHistory

/-!
## Claim theorems: the `InputHistory` component (C2, C7, C10)
-/

open InputHistory in
/-- C2: for any sequence of `add_entry` calls, any live text passed to the
first `get_previous`, and any (arbitrary) live-text arguments for the
remaining ones, performing exactly N `get_previous` calls
(N = number of stored entries, here `ls.length + 1`) followed by exactly
N `get_next` calls makes the final `get_next` return the original live
text.  Stated for every argument sequence `ts`, which subsumes the
claim's restriction to non-empty, trimming-distinct-from-previous
arguments. -/
theorem C2_history_roundtrip (ts : List String) (cap : Nat) (live : String)
    (ls : List String)
    (hn : (addAll ts (InputHistory.init cap)).history.length = ls.length + 1) :
    (applyNextN ls.length
        (applyPrevList ls
          ((addAll ts (InputHistory.init cap)).get_previous live).2)).get_next.1
      = some live := by
  have hp0 : (addAll ts (InputHistory.init cap)).position = 0 :=
    addAll_position_eq_zero ts _ rfl
  have hne : (addAll ts (InputHistory.init cap)).history ≠ [] := by
    intro he
    rw [he] at hn
    simp at hn
  rw [get_previous_snd_of_zero _ live hp0 hne]
  rw [applyPrevList_state ls _ (by simp) (by simp [hn]; omega)]
  rw [applyNextN_state ls.length _ (by simp)]
  simp [InputHistory.get_next, Nat.add_sub_cancel_left]

/-- C2 witness: a concrete instance, two entries then a full
back-and-forward navigation. -/
theorem C2_history_roundtrip_witness :
    (applyNextN 1
        (applyPrevList ["junk"]
          ((addAll ["a", "b"] (InputHistory.init 100)).get_previous "draft").2)).get_next.1
      = some "draft" :=
  C2_history_roundtrip ["a", "b"] 100 "draft" ["junk"] (by decide)

/-- C7: `add_entry` is a no-op when the text trims to empty or equals the
most recent stored entry (so adding `"x"` twice gives length 1);
otherwise it appends the trimmed text, evicting the oldest entry FIFO
when the history already holds `max_entries` (default 100) entries, and
resets the navigation offset to 0. -/
theorem C7_add_entry (h : InputHistory) (t : String) :
    (pyStrip t = "" → h.add_entry t = h) ∧
    (h.history.getLast? = some (pyStrip t) → h.add_entry t = h) ∧
    (pyStrip t ≠ "" → h.history.getLast? ≠ some (pyStrip t) →
      0 < h.max_entries → h.history.length ≤ h.max_entries →
      (h.add_entry t).history =
        (if h.history.length < h.max_entries then h.history ++ [pyStrip t]
         else h.history.tail ++ [pyStrip t]) ∧
      (h.add_entry t).position = 0 ∧ (h.add_entry t).original_input = "") ∧
    (((InputHistory.init 100).add_entry "x").add_entry "x").history.length = 1 := by
  refine ⟨?_, ?_, ?_, by decide⟩
  · intro he
    simp [InputHistory.add_entry, he]
  · intro hlast
    have hne : h.history ≠ [] := by
      intro he
      rw [he] at hlast
      simp at hlast
    by_cases he : pyStrip t = ""
    · simp [InputHistory.add_entry, he]
    · simp [InputHistory.add_entry, he, hne, hlast]
  · intro he hlast hcap hlen
    have hcond : ¬ (h.history ≠ [] ∧ h.history.getLast? = some (pyStrip t)) := by
      intro hc
      exact hlast hc.2
    have hhist : (h.add_entry t).history
        = InputHistory.dequeAppend h.max_entries h.history (pyStrip t) := by
      simp [InputHistory.add_entry, he, hcond, InputHistory.reset_position]
    have hpos0 : (h.add_entry t).position = 0 := by
      simp [InputHistory.add_entry, he, hcond, InputHistory.reset_position]
    have horig : (h.add_entry t).original_input = "" := by
      simp [InputHistory.add_entry, he, hcond, InputHistory.reset_position]
    refine ⟨?_, hpos0, horig⟩
    rw [hhist]
    unfold InputHistory.dequeAppend
    have hlen1 : (h.history ++ [pyStrip t]).length = h.history.length + 1 := by simp
    split
    next hlt =>
      rw [hlen1] at hlt
      have hpos : ¬ h.history.length < h.max_entries := by omega
      rw [if_neg hpos, hlen1]
      have hdrop : h.history.length + 1 - h.max_entries = 1 := by omega
      rw [hdrop]
      rw [List.drop_append_of_le_length (by omega)]
      rw [List.drop_one]
    next hge =>
      rw [hlen1] at hge
      have hpos : h.history.length < h.max_entries := by omega
      rw [if_pos hpos]

/-- C7 witness: at capacity 2 with entries `["a", "b"]`, adding `"c"`
evicts `"a"` FIFO and resets navigation. -/
theorem C7_add_entry_witness :
    ((InputHistory.mk 2 ["a", "b"] 1 "live").add_entry "c").history =
      (if (InputHistory.mk 2 ["a", "b"] 1 "live").history.length <
          (InputHistory.mk 2 ["a", "b"] 1 "live").max_entries
       then (InputHistory.mk 2 ["a", "b"] 1 "live").history ++ [pyStrip "c"]
       else (InputHistory.mk 2 ["a", "b"] 1 "live").history.tail ++ [pyStrip "c"]) ∧
    ((InputHistory.mk 2 ["a", "b"] 1 "live").add_entry "c").position = 0 ∧
    ((InputHistory.mk 2 ["a", "b"] 1 "live").add_entry "c").original_input = "" :=
  (C7_add_entry (InputHistory.mk 2 ["a", "b"] 1 "live") "c").2.2.1
    (by decide) (by decide) (by decide) (by decide)

/-- C10: every `InputHistory` operation preserves
`position ≤ length ≤ max_entries` (with `0 ≤ position` implicit in
`Nat`), and whenever `get_previous` or `get_next` reads a stored entry,
the read index `length - position` is in bounds. -/
theorem C10_history_invariant (h : InputHistory) (t cur : String) (hi : h.Inv) :
    (h.add_entry t).Inv ∧ (h.get_previous cur).2.Inv ∧ h.get_next.2.Inv ∧
    h.reset_position.Inv ∧ h.clear.Inv ∧
    ((h.get_previous cur).1.isSome →
      (h.get_previous cur).2.history.length - (h.get_previous cur).2.position
        < (h.get_previous cur).2.history.length) ∧
    (h.get_next.1.isSome → h.get_next.2.position ≠ 0 →
      h.get_next.2.history.length - h.get_next.2.position
        < h.get_next.2.history.length) := by
  obtain ⟨hi1, hi2⟩ := hi
  refine ⟨?_, ?_, ?_, ?_, ?_, ?_, ?_⟩
  · unfold InputHistory.add_entry
    split
    · exact ⟨hi1, hi2⟩
    · split
      · exact ⟨hi1, hi2⟩
      · exact ⟨Nat.zero_le _, InputHistory.dequeAppend_length_le _ _ _⟩
  · unfold InputHistory.get_previous
    split_ifs with h1 h2 h3
    · exact ⟨hi1, hi2⟩
    · have : h.history ≠ [] := h1
      have : 0 < h.history.length := List.length_pos.mpr this
      exact ⟨by simpa using this, by simpa using hi2⟩
    · exact ⟨by simpa using h3, by simpa using hi2⟩
    · exact ⟨hi1, hi2⟩
  · unfold InputHistory.get_next
    split_ifs with h1 h2
    · exact ⟨hi1, hi2⟩
    · exact ⟨by simp; omega, by simpa using hi2⟩
    · exact ⟨by simp; omega, by simpa using hi2⟩
  · exact ⟨Nat.zero_le _, hi2⟩
  · exact ⟨Nat.zero_le _, by simp [InputHistory.clear, InputHistory.reset_position]⟩
  · unfold InputHistory.get_previous
    split_ifs with h1 h2 h3
    · simp
    · have : 0 < h.history.length := List.length_pos.mpr h1
      simp only [Option.isSome_some]
      intro
      simp
      omega
    · simp only [Option.isSome_some]
      intro
      simp
      omega
    · simp
  · unfold InputHistory.get_next
    split_ifs with h1 h2
    · simp
    · simp only [Option.isSome_some]
      intro _ hp
      simp at hp
      omega
    · simp only [Option.isSome_some]
      intro _ hp
      simp at hp ⊢
      omega

/-!
## Lemmas about the event loop
-/

theorem lastLine_of_not_contains (l : List Char) (h : l.contains '\n' = false) :
    lastLine l = l := by
  unfold lastLine
  rw [List.takeWhile_eq_self_iff.mpr, List.reverse_reverse]
  intro x hx
  simp only [List.mem_reverse] at hx
  simp only [Bool.not_eq_true']
  rw [decide_eq_false_iff_not]
  intro he
  subst he
  simp [List.contains_eq_any_beq] at h
  exact h hx

theorem AllOK_of_repaints_eq (e e' : Ed) (h : AllOK e) (he : e'.repaints = e.repaints) :
    AllOK e' := by
  intro ev hev
  rw [he] at hev
  exact h ev hev

theorem AllOK_append (e : Ed) (ev : Repaint) (h : AllOK e) (hev : RepOK ev) :
    AllOK { e with repaints := e.repaints ++ [ev] } := by
  intro x hx
  simp only [List.mem_append, List.mem_singleton] at hx
  rcases hx with hx | rfl
  · exact h x hx
  · exact hev

theorem AllOK_printHelp (e : Ed) (h : AllOK e) : AllOK (printHelp e) := by
  refine AllOK_append e _ h ?_
  intro htr hnc
  simp only at htr hnc ⊢
  rw [htr, lastLine_of_not_contains _ hnc]
  omega

theorem AllOK_showEscHint (e : Ed) (h : AllOK e) : AllOK (showEscHint e) := by
  refine AllOK_append e _ h ?_
  intro htr hnc
  simp only at htr hnc ⊢
  rw [htr, lastLine_of_not_contains _ hnc]
  omega

theorem AllOK_resetCtrl (e : Ed) (h : AllOK e) : AllOK (resetCtrl e) := by
  refine AllOK_of_repaints_eq (emitR .ctrlcRst (e.tracked.length + 4) e) _ ?_ rfl
  refine AllOK_append e _ h ?_
  intro htr hnc
  simp only at htr hnc ⊢
  rw [htr]

theorem AllOK_resetEscHelp (e : Ed) (h : AllOK e) : AllOK (resetEscHelp e) := by
  refine AllOK_of_repaints_eq (printHelp e) _ ?_ rfl
  exact AllOK_printHelp e h

theorem AllOK_clearInputRedraw (e : Ed) (h : AllOK e) : AllOK (clearInputRedraw e) := by
  refine AllOK_printHelp _ ?_
  exact AllOK_of_repaints_eq e _ h rfl

theorem AllOK_replaceWithHistory (s : String) (e : Ed) (h : AllOK e) :
    AllOK (replaceWithHistory s e) := by
  refine AllOK_printHelp _ ?_
  exact AllOK_of_repaints_eq e _ h rfl

theorem AllOK_appendSync (c : Char) (e : Ed) (h : AllOK e) : AllOK (appendSync c e) :=
  AllOK_of_repaints_eq e _ h rfl

theorem AllOK_popSync (e : Ed) (h : AllOK e) : AllOK (popSync e) :=
  AllOK_of_repaints_eq e _ h rfl

theorem AllOK_handleArrow (f : Char) (m : M) (h : AllOK m.ed) :
    AllOK (handleArrow f m).ed := by
  unfold handleArrow
  split_ifs with hA hB
  · cases hp : (m.ed.hist.get_previous (String.mk m.ed.buffer)).1 with
    | none =>
      simp only [hp]
      split_ifs with hE
      · exact AllOK_resetEscHelp _ (AllOK_of_repaints_eq m.ed _ h rfl)
      · exact AllOK_of_repaints_eq m.ed _ h rfl
    | some s =>
      simp only [hp]
      split_ifs with hE
      · exact AllOK_resetEscHelp _ (AllOK_replaceWithHistory s _ (AllOK_of_repaints_eq m.ed _ h rfl))
      · exact AllOK_replaceWithHistory s _ (AllOK_of_repaints_eq m.ed _ h rfl)
  · cases hp : m.ed.hist.get_next.1 with
    | none =>
      simp only [hp]
      split_ifs with hE
      · exact AllOK_resetEscHelp _ (AllOK_replaceWithHistory "" _ (AllOK_of_repaints_eq m.ed _ h rfl))
      · exact AllOK_replaceWithHistory "" _ (AllOK_of_repaints_eq m.ed _ h rfl)
    | some s =>
      simp only [hp]
      split_ifs with hE
      · exact AllOK_resetEscHelp _ (AllOK_replaceWithHistory s _ (AllOK_of_repaints_eq m.ed _ h rfl))
      · exact AllOK_replaceWithHistory s _ (AllOK_of_repaints_eq m.ed _ h rfl)
  · dsimp only
    split_ifs with hE
    · exact AllOK_resetEscHelp _ h
    · exact h

theorem handleArrow_term (f : Char) (m : M) : (handleArrow f m).term = m.term := rfl

theorem StepOK_cont {m' : M} (h1 : TermInv m') (h2 : AllOK m'.ed) :
    StepOK (.cont m') := by
  constructor
  · intro x hx
    cases hx
    exact ⟨h1, h2⟩
  · intro o x hx
    exact Step.noConfusion hx

theorem StepOK_done {o : Outcome} {m' : M} (h1 : TermDone m') (h2 : AllOK m'.ed)
    (h3 : o ≠ .emptyCancelled) (h4 : o ≠ .blocked)
    (h5 : ∀ t, o = .submitted t → pyStrip t ≠ "") : StepOK (.done o m') := by
  constructor
  · intro x hx
    exact Step.noConfusion hx
  · intro o' x hx
    injection hx with ho hm
    subst ho
    subst hm
    exact ⟨h1, h2, h3, h4, h5⟩

theorem restoreMode_of_raw (t : Term) (h : t.raw = true) :
    restoreMode t = { raw := false, acq := t.acq, rel := t.rel + 1 } := by
  simp [restoreMode, h]

theorem restoreMode_restoreMode_of_raw (t : Term) (h : t.raw = true) :
    restoreMode (restoreMode t) = { raw := false, acq := t.acq, rel := t.rel + 1 } := by
  rw [restoreMode_of_raw t h]
  simp [restoreMode]

theorem setRawMode_restoreMode_of_raw (t : Term) (h : t.raw = true) :
    setRawMode (restoreMode t) = { raw := true, acq := t.acq + 1, rel := t.rel + 1 } := by
  rw [restoreMode_of_raw t h]
  simp [setRawMode]

theorem pyStrip_mk_eq_empty_iff (l : List Char) :
    pyStrip (String.mk l) = "" ↔ stripList l = [] := by
  simp [pyStrip, String.ext_iff]

theorem dispatchKey_ok (c : Char) (m : M) (ht : TermInv m) (hr : AllOK m.ed) :
    StepOK (dispatchKey c m) := by
  obtain ⟨hraw, hbal⟩ := ht
  unfold dispatchKey
  by_cases hsl : c = '/' ∧ m.ed.buffer = []
  · rw [if_pos hsl]
    rcases hq : popHook m.ed with ⟨r, e2⟩
    have he2 : AllOK e2 := by
      unfold popHook at hq
      cases hqq : m.ed.hookQueue with
      | nil =>
        rw [hqq] at hq
        injection hq with h1 h2
        subst h2
        exact hr
      | cons a q =>
        rw [hqq] at hq
        injection hq with h1 h2
        subst h2
        exact AllOK_of_repaints_eq m.ed _ hr rfl
    cases r with
    | exit =>
      apply StepOK_done
      · constructor
        · simp [restoreMode_restoreMode_of_raw m.term hraw]
        · simp [restoreMode_restoreMode_of_raw m.term hraw]
          omega
      · exact AllOK_of_repaints_eq e2 _ he2 rfl
      · intro hx
        exact Outcome.noConfusion hx
      · intro hx
        exact Outcome.noConfusion hx
      · intro t hx
        exact Outcome.noConfusion hx
    | cont =>
      apply StepOK_cont
      · constructor
        · simp [setRawMode_restoreMode_of_raw m.term hraw]
        · simp [setRawMode_restoreMode_of_raw m.term hraw]
          omega
      · exact AllOK_printHelp _ (AllOK_of_repaints_eq e2 _ he2 rfl)
    | fail =>
      apply StepOK_cont
      · constructor
        · simp [setRawMode_restoreMode_of_raw m.term hraw]
        · simp [setRawMode_restoreMode_of_raw m.term hraw]
          omega
      · exact AllOK_printHelp _ (AllOK_of_repaints_eq e2 _ he2 rfl)
  · rw [if_neg hsl]
    by_cases hcr : c = '\r'
    · rw [if_pos hcr]
      by_cases hblank : stripList m.ed.buffer = []
      · rw [if_pos hblank]
        refine StepOK_cont ⟨hraw, hbal⟩ ?_
        exact AllOK_of_repaints_eq m.ed _ hr rfl
      · rw [if_neg hblank]
        have hstrip : ¬ pyStrip (String.mk m.ed.buffer) = "" := by
          rw [pyStrip_mk_eq_empty_iff]
          exact hblank
        rw [if_neg hstrip]
        apply StepOK_done
        · exact ⟨by simp [restoreMode_of_raw m.term hraw],
                 by simp [restoreMode_of_raw m.term hraw]; omega⟩
        · exact AllOK_of_repaints_eq m.ed _ hr rfl
        · intro hx
          exact Outcome.noConfusion hx
        · intro hx
          exact Outcome.noConfusion hx
        · intro t hx
          injection hx with he
          subst he
          exact hstrip
    · rw [if_neg hcr]
      by_cases hlf : c = '\x0a'
      · rw [if_pos hlf]
        by_cases hline : lastLine m.ed.buffer ≠ []
        · rw [if_pos hline]
          refine StepOK_cont ⟨hraw, hbal⟩ ?_
          refine AllOK_append _ _ (AllOK_appendSync _ _ hr) ?_
          intro htr hnc
          simp only [appendSync] at hnc
          simp at hnc
        · rw [if_neg hline]
          exact StepOK_cont ⟨hraw, hbal⟩ hr
      · rw [if_neg hlf]
        by_cases hbs : c = '\x7f' ∨ c = '\x08'
        · rw [if_pos hbs]
          by_cases hbe : m.ed.buffer = []
          · rw [if_pos hbe]
            exact StepOK_cont ⟨hraw, hbal⟩ hr
          · rw [if_neg hbe]
            by_cases hnl : m.ed.buffer.getLast? = some '\x0a' ∨ lastLine m.ed.buffer = []
            · rw [if_pos hnl]
              by_cases hnl2 : m.ed.buffer.getLast? = some '\x0a'
              · rw [if_pos hnl2]
                refine StepOK_cont ⟨hraw, hbal⟩ ?_
                unfold bsPopRepaint
                apply AllOK_printHelp
                refine AllOK_append _ _ (AllOK_popSync _ hr) ?_
                intro htr hnc
                simp only [popSync] at htr hnc ⊢
                rw [lastLine_of_not_contains _ hnc]
                omega
              · rw [if_neg hnl2]
                exact StepOK_cont ⟨hraw, hbal⟩ hr
            · rw [if_neg hnl]
              exact StepOK_cont ⟨hraw, hbal⟩ (AllOK_popSync _ hr)
        · rw [if_neg hbs]
          by_cases hesc : c = '\x1b'
          · rw [if_pos hesc]
            by_cases hcont : stripList m.ed.buffer ≠ []
            · rw [if_pos hcont]
              by_cases hescr : m.ed.escReset = true
              · rw [if_pos hescr]
                refine StepOK_cont ⟨hraw, hbal⟩ ?_
                exact AllOK_of_repaints_eq (clearInputRedraw m.ed) _
                  (AllOK_clearInputRedraw _ hr) rfl
              · rw [if_neg hescr]
                refine StepOK_cont ⟨hraw, hbal⟩ ?_
                refine AllOK_of_repaints_eq (showEscHint { m.ed with escReset := true }) _ ?_ rfl
                exact AllOK_showEscHint _ (AllOK_of_repaints_eq m.ed _ hr rfl)
            · rw [if_neg hcont]
              exact StepOK_cont ⟨hraw, hbal⟩ (AllOK_of_repaints_eq m.ed _ hr rfl)
          · rw [if_neg hesc]
            exact StepOK_cont ⟨hraw, hbal⟩
              (AllOK_appendSync _ _ (AllOK_of_repaints_eq m.ed _ hr rfl))

theorem normalHandle_ok (c : Char) (m : M) (ht : TermInv m) (hr : AllOK m.ed) :
    StepOK (normalHandle c m) := by
  obtain ⟨hraw, hbal⟩ := ht
  unfold normalHandle
  by_cases hc3 : c = '\x03'
  · rw [if_pos hc3]
    by_cases hcc : m.ed.ctrlC = true
    · rw [if_pos hcc]
      apply StepOK_done
      · exact ⟨by simp [restoreMode_restoreMode_of_raw m.term hraw],
               by simp [restoreMode_restoreMode_of_raw m.term hraw]; omega⟩
      · exact hr
      · intro hx
        exact Outcome.noConfusion hx
      · intro hx
        exact Outcome.noConfusion hx
      · intro t hx
        exact Outcome.noConfusion hx
    · rw [if_neg hcc]
      refine StepOK_cont ⟨hraw, hbal⟩ ?_
      refine AllOK_append _ _ (AllOK_of_repaints_eq m.ed _ hr rfl) ?_
      intro htr hnc
      rfl
  · rw [if_neg hc3]
    apply dispatchKey_ok
    · exact ⟨hraw, hbal⟩
    · unfold escLatchReset ctrlLatchReset
      split_ifs with h1 h2 h3
      · exact AllOK_resetEscHelp _ (AllOK_resetCtrl _ hr)
      · exact AllOK_resetCtrl _ hr
      · exact AllOK_resetEscHelp _ hr
      · exact hr

theorem processByte_ok (c : Char) (m : M) (ht : TermInv m) (hr : AllOK m.ed) :
    StepOK (processByte c m) := by
  unfold processByte
  by_cases hpb : m.ed.pendingBracket = true
  · rw [if_pos hpb]
    apply StepOK_cont
    · rw [TermInv, handleArrow_term]
      exact ht
    · exact AllOK_handleArrow _ _ (AllOK_of_repaints_eq m.ed _ hr rfl)
  · rw [if_neg hpb]
    by_cases hpe : m.ed.pendingEsc = true
    · rw [if_pos hpe]
      by_cases hbr : c = '['
      · rw [if_pos hbr]
        refine StepOK_cont ht ?_
        exact AllOK_of_repaints_eq m.ed _ hr rfl
      · rw [if_neg hbr]
        by_cases hdbl : c = '\x1b' ∧ stripList m.ed.buffer ≠ [] ∧ m.ed.escReset = true
        · rw [if_pos ?_]
          · refine StepOK_cont ht ?_
            refine AllOK_of_repaints_eq (clearInputRedraw { m.ed with pendingEsc := false }) _ ?_ rfl
            exact AllOK_clearInputRedraw _ (AllOK_of_repaints_eq m.ed _ hr rfl)
          · exact ⟨hdbl.1, by simpa using hdbl.2.1, hdbl.2.2⟩
        · rw [if_neg ?_]
          · apply normalHandle_ok
            · exact ht
            · exact AllOK_of_repaints_eq m.ed _ hr rfl
          · intro hx
            exact hdbl ⟨hx.1, by simpa using hx.2.1, hx.2.2⟩
    · rw [if_neg hpe]
      exact normalHandle_ok c m ht hr

theorem eventLoop_ok (input : List Char) (m : M) (ht : TermInv m) (hr : AllOK m.ed) :
    AllOK (eventLoop input m).m.ed ∧
    ((eventLoop input m).outcome ≠ .blocked → TermDone (eventLoop input m).m) ∧
    (eventLoop input m).outcome ≠ .emptyCancelled ∧
    (∀ s, (eventLoop input m).outcome = .submitted s → pyStrip s ≠ "") := by
  induction input generalizing m with
  | nil =>
    refine ⟨hr, ?_, ?_, ?_⟩
    · intro hb
      exact absurd rfl hb
    · intro hx
      exact Outcome.noConfusion hx
    · intro s hx
      exact Outcome.noConfusion hx
  | cons c rest ih =>
    rw [eventLoop]
    by_cases hf : m.ed.faultAt = some m.ed.iter
    · rw [if_pos hf]
      obtain ⟨hraw, hbal⟩ := ht
      refine ⟨hr, ?_, ?_, ?_⟩
      · intro _
        exact ⟨by simp [restoreMode_of_raw m.term hraw],
               by simp [restoreMode_of_raw m.term hraw]; omega⟩
      · intro hx
        exact Outcome.noConfusion hx
      · intro s hx
        exact Outcome.noConfusion hx
    · rw [if_neg hf]
      have ht1 : TermInv (tick m) := ht
      have hr1 : AllOK (tick m).ed := AllOK_of_repaints_eq m.ed _ hr rfl
      have hstep := processByte_ok c _ ht1 hr1
      cases hs : processByte c (tick m) with
      | done o m' =>
        dsimp only
        have hd := hstep.2 o m' hs
        refine ⟨hd.2.1, fun _ => hd.1, hd.2.2.1, ?_⟩
        intro s hx
        exact hd.2.2.2.2 s hx
      | cont m' =>
        dsimp only
        have hc := hstep.1 m' hs
        exact ih m' hc.1 hc.2

/-- C10 witness: a concrete state satisfying the invariant. -/
theorem C10_history_invariant_witness :
    ((InputHistory.mk 100 ["a", "b"] 1 "x").add_entry "c").Inv ∧
    ((InputHistory.mk 100 ["a", "b"] 1 "x").get_previous "cur").2.Inv ∧
    (InputHistory.mk 100 ["a", "b"] 1 "x").get_next.2.Inv ∧
    (InputHistory.mk 100 ["a", "b"] 1 "x").reset_position.Inv ∧
    (InputHistory.mk 100 ["a", "b"] 1 "x").clear.Inv ∧
    (((InputHistory.mk 100 ["a", "b"] 1 "x").get_previous "cur").1.isSome →
      ((InputHistory.mk 100 ["a", "b"] 1 "x").get_previous "cur").2.history.length -
          ((InputHistory.mk 100 ["a", "b"] 1 "x").get_previous "cur").2.position
        < ((InputHistory.mk 100 ["a", "b"] 1 "x").get_previous "cur").2.history.length) ∧
    ((InputHistory.mk 100 ["a", "b"] 1 "x").get_next.1.isSome →
      (InputHistory.mk 100 ["a", "b"] 1 "x").get_next.2.position ≠ 0 →
      (InputHistory.mk 100 ["a", "b"] 1 "x").get_next.2.history.length -
          (InputHistory.mk 100 ["a", "b"] 1 "x").get_next.2.position
        < (InputHistory.mk 100 ["a", "b"] 1 "x").get_next.2.history.length) :=
  C10_history_invariant (InputHistory.mk 100 ["a", "b"] 1 "x") "c" "cur"
    (by constructor <;> decide)


/-!
## Claim theorems: the event loop (C1, C3, C4, C5, C6, C8, C9)
-/

theorem initEd_AllOK (prefill : String) (hooks : List HookRes) (fa : Option Nat) :
    AllOK (initEd prefill hooks fa) := by
  intro ev hev
  simp [initEd] at hev

theorem get_multiline_input_ok (prefill : String) (input : List Char)
    (hooks : List HookRes) (fa : Option Nat) :
    AllOK (get_multiline_input prefill input hooks fa).m.ed ∧
    ((get_multiline_input prefill input hooks fa).outcome ≠ .blocked →
      TermDone (get_multiline_input prefill input hooks fa).m) ∧
    (get_multiline_input prefill input hooks fa).outcome ≠ .emptyCancelled ∧
    (∀ s, (get_multiline_input prefill input hooks fa).outcome = .submitted s →
      pyStrip s ≠ "") := by
  have h := eventLoop_ok input
    { ed := printHelp (initEd prefill hooks fa),
      term := setRawMode { raw := false, acq := 0, rel := 0 } }
    ⟨rfl, rfl⟩ (AllOK_printHelp _ (initEd_AllOK prefill hooks fa))
  exact h

/-- C3: on every terminating path of the raw-mode editor — submission,
palette exit, the propagated interrupt, and an injected unexpected fault
— the terminal ends in the saved cooked mode and the number of
raw-entry transitions equals the number of raw-exit transitions (raw
mode is released exactly once per acquisition, counting mode
transitions; re-applying the saved cooked settings while already cooked,
as the `finally` does after the explicit restore on the interrupt path,
is idempotent and is not a release).  This covers the temporary
suspension around the palette hook, including a hook that raises. -/
theorem C3_terminal_mode_balanced (prefill : String) (input : List Char)
    (hooks : List HookRes) (faultAt : Option Nat)
    (hnb : (get_multiline_input prefill input hooks faultAt).outcome ≠ .blocked) :
    (get_multiline_input prefill input hooks faultAt).m.term.raw = false ∧
    (get_multiline_input prefill input hooks faultAt).m.term.acq =
      (get_multiline_input prefill input hooks faultAt).m.term.rel :=
  (get_multiline_input_ok prefill input hooks faultAt).2.1 hnb

/-- C3 witness: a submission, a palette round-trip (suspend and resume),
and an injected fault, each ending cooked and balanced. -/
theorem C3_terminal_mode_balanced_witness :
    ((get_multiline_input "" ['h', 'i', '\x0d'] [] none).outcome ≠ .blocked ∧
      (get_multiline_input "" ['h', 'i', '\x0d'] [] none).m.term.raw = false ∧
      (get_multiline_input "" ['h', 'i', '\x0d'] [] none).m.term.acq =
        (get_multiline_input "" ['h', 'i', '\x0d'] [] none).m.term.rel) ∧
    ((get_multiline_input "" ['/', 'x', '\x03', '\x03'] [HookRes.fail] none).outcome ≠ .blocked ∧
      (get_multiline_input "" ['/', 'x', '\x03', '\x03'] [HookRes.fail] none).m.term.raw = false ∧
      (get_multiline_input "" ['/', 'x', '\x03', '\x03'] [HookRes.fail] none).m.term.acq =
        (get_multiline_input "" ['/', 'x', '\x03', '\x03'] [HookRes.fail] none).m.term.rel) ∧
    ((get_multiline_input "" ['a', 'b'] [] (some 1)).outcome ≠ .blocked ∧
      (get_multiline_input "" ['a', 'b'] [] (some 1)).m.term.raw = false ∧
      (get_multiline_input "" ['a', 'b'] [] (some 1)).m.term.acq =
        (get_multiline_input "" ['a', 'b'] [] (some 1)).m.term.rel) :=
  ⟨⟨by decide, C3_terminal_mode_balanced "" ['h', 'i', '\x0d'] [] none (by decide)⟩,
   ⟨by decide, C3_terminal_mode_balanced "" ['/', 'x', '\x03', '\x03'] [HookRes.fail] none (by decide)⟩,
   ⟨by decide, C3_terminal_mode_balanced "" ['a', 'b'] [] (some 1) (by decide)⟩⟩

/-- C9: the raw-mode path never takes the post-loop blank-cancellation
branch (`Outcome.emptyCancelled` is unreachable), and every submitted
string contains a non-whitespace character: the Enter handler only
breaks the loop when the stripped buffer is non-empty. -/
theorem C9_submitted_nonblank (prefill : String) (input : List Char)
    (hooks : List HookRes) (faultAt : Option Nat) :
    (get_multiline_input prefill input hooks faultAt).outcome ≠ .emptyCancelled ∧
    (∀ s, (get_multiline_input prefill input hooks faultAt).outcome = .submitted s →
      pyStrip s ≠ "") :=
  ⟨(get_multiline_input_ok prefill input hooks faultAt).2.2.1,
   (get_multiline_input_ok prefill input hooks faultAt).2.2.2⟩

/-- C9 witness: a concrete submission whose returned string is
non-blank. -/
theorem C9_submitted_nonblank_witness :
    (get_multiline_input "" ['h', 'i', '\x0d'] [] none).outcome ≠ .emptyCancelled ∧
    (get_multiline_input "" ['h', 'i', '\x0d'] [] none).outcome = .submitted "hi" ∧
    pyStrip "hi" ≠ "" :=
  ⟨(C9_submitted_nonblank "" ['h', 'i', '\x0d'] [] none).1, by decide,
   (C9_submitted_nonblank "" ['h', 'i', '\x0d'] [] none).2 "hi" (by decide)⟩

/-- C5 counterexample: the claim "the display column equals the last-line
length plus a fixed two-character prompt-marker width (content at
0-based column 2)" fails already for the very first repaint of an
empty-buffer `read_line`, whose column parameter is 4 (0-based column 3,
behind the three-character `">> "` marker), not 3; moreover the repaint
after the first Ctrl+C press on the multi-line buffer `"a\ncd"`-style
content uses the whole buffer length (here column 7) rather than the
last line, and after a whitespace-only Enter the tracked
`_current_buffer` snapshot lags the live buffer, so the Ctrl+C-reset
repaint emits column 5 over an empty live buffer. -/
theorem C5_counterexample :
    ((get_multiline_input "" [] [] none).m.ed.repaints =
        [{ kind := .help, col := 4, live := [], tracked := [] }] ∧
      ¬ SpecRepCol { kind := .help, col := 4, live := [], tracked := [] }) ∧
    ((get_multiline_input "" ['a', '\x0a', 'b', '\x03'] [] none).m.ed.repaints.getLast? =
        some { kind := .ctrlcArm, col := 7, live := ['a', '\x0a', 'b'],
               tracked := ['a', '\x0a', 'b'] } ∧
      7 ≠ (lastLine ['a', '\x0a', 'b']).length + 4) ∧
    ((get_multiline_input "" [' ', '\x0d', '\x03', 'x'] [] none).m.ed.repaints.getLast? =
        some { kind := .ctrlcRst, col := 5, live := [], tracked := [' '] } ∧
      5 ≠ ([] : List Char).length + 4) := by
  refine ⟨⟨by decide, ?_⟩, ⟨by decide, by decide⟩, ⟨by decide, by decide⟩⟩
  unfold SpecRepCol
  decide

/-- C5 amended: whenever the `_current_buffer` snapshot used for cursor
math agrees with the live buffer (it lags only after the
whitespace-Enter clear) and the buffer is single-line, every emitted
repaint column equals the buffer length plus 4 (1-based): the prompt
marker `">> "` is three characters wide, so content starts at 0-based
column 3, not 2.  On multi-line buffers the two Ctrl+C-latch repaints
use the whole buffer length instead of the last line (see the
counterexample), hence the single-line restriction. -/
theorem C5_repaint_column_amended (prefill : String) (input : List Char)
    (hooks : List HookRes) (faultAt : Option Nat) :
    ∀ ev ∈ (get_multiline_input prefill input hooks faultAt).m.ed.repaints,
      ev.tracked = ev.live → ev.live.contains '\x0a' = false →
      ev.col = ev.live.length + 4 := by
  intro ev hev
  exact (get_multiline_input_ok prefill input hooks faultAt).1 ev hev

/-- C5 amended witness: the prompt repaint of a single-line buffer. -/
theorem C5_repaint_column_amended_witness :
    ({ kind := .help, col := 4, live := [], tracked := [] } : Repaint) ∈
      (get_multiline_input "" [] [] none).m.ed.repaints ∧
    ({ kind := .help, col := 4, live := [], tracked := [] } : Repaint).col =
      ({ kind := .help, col := 4, live := [], tracked := [] } : Repaint).live.length + 4 :=
  ⟨by decide,
   C5_repaint_column_amended "" [] [] none _ (by decide) rfl rfl⟩


/-- C1 counterexample: from an empty editor, after typing `"ab"`, the
byte sequence `ESC` then `Ctrl+C` leaves BOTH two-stage latches armed at
once (the Ctrl+C handler `continue`s before the line that would clear
the Escape latch), and a following lone `ESC` does clear the buffer —
contradicting both the mutual-exclusion invariant and the claimed
behaviour of the Escape latch after Ctrl+C. -/
theorem C1_counterexample :
    ((get_multiline_input "" ['a', 'b', '\x1b', '\x03'] [] none).m.ed.escReset = true ∧
     (get_multiline_input "" ['a', 'b', '\x1b', '\x03'] [] none).m.ed.ctrlC = true) ∧
    (get_multiline_input "" ['a', 'b', '\x1b', '\x03', '\x1b'] [] none).m.ed.buffer = [] := by
  decide

/-- C1 amended: the two latches are not mutually exclusive.  Pressing
Escape while the Ctrl+C latch is armed clears the Ctrl+C latch (the
non-interrupt-key reset at lines 131-135), but pressing Ctrl+C while the
Escape latch is armed leaves that latch armed: from any quiescent state
with a non-blank buffer, after `ESC` then `Ctrl+C` both latches are
armed simultaneously, and a following lone `ESC` clears the Ctrl+C
latch and clears the buffer. -/
theorem C1_latches_amended (m : M)
    (hf : m.ed.faultAt = none)
    (hpe : m.ed.pendingEsc = false) (hpb : m.ed.pendingBracket = false)
    (hcc : m.ed.ctrlC = false) (her : m.ed.escReset = false)
    (hnb : stripList m.ed.buffer ≠ []) :
    ((eventLoop ['\x1b', '\x03'] m).m.ed.escReset = true ∧
     (eventLoop ['\x1b', '\x03'] m).m.ed.ctrlC = true) ∧
    ((eventLoop ['\x1b', '\x03', '\x1b'] m).m.ed.ctrlC = false ∧
     (eventLoop ['\x1b', '\x03', '\x1b'] m).m.ed.buffer = []) := by
  simp +decide [eventLoop, tick, processByte, normalHandle, dispatchKey, escLatchReset,
    ctrlLatchReset, showEscHint, emitR, resetCtrl, resetEscHelp, printHelp, clearInputRedraw,
    hf, hpe, hpb, hcc, her, hnb]

/-- C1 amended witness: the quiescent state with buffer `"ab"` straight
after two printable bytes. -/
theorem C1_latches_amended_witness :
    ((eventLoop ['\x1b', '\x03']
        (get_multiline_input "" ['a', 'b'] [] none).m).m.ed.escReset = true ∧
     (eventLoop ['\x1b', '\x03']
        (get_multiline_input "" ['a', 'b'] [] none).m).m.ed.ctrlC = true) ∧
    ((eventLoop ['\x1b', '\x03', '\x1b']
        (get_multiline_input "" ['a', 'b'] [] none).m).m.ed.ctrlC = false ∧
     (eventLoop ['\x1b', '\x03', '\x1b']
        (get_multiline_input "" ['a', 'b'] [] none).m).m.ed.buffer = []) :=
  C1_latches_amended (get_multiline_input "" ['a', 'b'] [] none).m
    (by decide) (by decide) (by decide) (by decide) (by decide) (by decide)

/-- C4: from an empty buffer, typing `ab`, Ctrl+J, `cd`: three
backspaces leave `"ab"` (deleting `d`, `c`, then the embedded newline)
and a fourth leaves `"a"`; and from any state with an empty buffer, a
backspace byte leaves the buffer empty (deletion never reaches the
prompt marker). -/
theorem C4_backspace :
    (get_multiline_input "" ['a', 'b', '\x0a', 'c', 'd', '\x7f', '\x7f', '\x7f']
        [] none).m.ed.buffer = ['a', 'b'] ∧
    (get_multiline_input "" ['a', 'b', '\x0a', 'c', 'd', '\x7f', '\x7f', '\x7f', '\x7f']
        [] none).m.ed.buffer = ['a'] ∧
    (∀ (m : M) (c : Char), m.ed.faultAt = none → m.ed.buffer = [] →
      (c = '\x7f' ∨ c = '\x08') →
      (eventLoop [c] m).m.ed.buffer = []) := by
  refine ⟨by decide, by decide, ?_⟩
  intro m c hf hb hc
  have hnesc : ¬ c = '\x1b' := by
    rcases hc with rfl | rfl <;> decide
  rcases hc with rfl | rfl <;>
  · by_cases hpb : m.ed.pendingBracket = true <;>
      by_cases hpe : m.ed.pendingEsc = true <;>
        by_cases hcc : m.ed.ctrlC = true <;>
          by_cases her : m.ed.escReset = true <;>
            simp +decide [eventLoop, tick, processByte, normalHandle, dispatchKey,
              escLatchReset, ctrlLatchReset, showEscHint, emitR, resetCtrl, resetEscHelp,
              printHelp, clearInputRedraw, handleArrow, bsPopRepaint, popSync, appendSync,
              hf, hb, hpb, hpe, hcc, her]

/-- C4 witness: a backspace on the initial empty buffer leaves it
empty. -/
theorem C4_backspace_witness :
    (eventLoop ['\x7f'] (get_multiline_input "" [] [] none).m).m.ed.buffer = [] :=
  C4_backspace.2.2 (get_multiline_input "" [] [] none).m '\x7f'
    (by decide) (by decide) (Or.inl rfl)

/-- C6: from any state of the event loop that is not in the middle of
reading an `ESC [` sequence, two consecutive interrupt bytes terminate
the editor by propagating the interrupt (possibly already on the first
byte if the latch was armed), for every buffer content; and this
cancellation outcome is a different constructor from the null-return
outcomes used for cancelled/empty turns (palette exit and the blank
cancellation). -/
theorem C6_double_interrupt (m : M) (rest : List Char)
    (hf : m.ed.faultAt = none) (hpb : m.ed.pendingBracket = false) :
    (eventLoop ('\x03' :: '\x03' :: rest) m).outcome = .interrupted ∧
    Outcome.interrupted ≠ Outcome.paletteExit ∧
    Outcome.interrupted ≠ Outcome.emptyCancelled := by
  refine ⟨?_, by decide, by decide⟩
  by_cases hpe : m.ed.pendingEsc = true <;>
    by_cases hcc : m.ed.ctrlC = true <;>
      simp +decide [eventLoop, tick, processByte, normalHandle, dispatchKey,
        escLatchReset, ctrlLatchReset, showEscHint, emitR, resetCtrl, resetEscHelp,
        printHelp, clearInputRedraw, hf, hpb, hpe, hcc]

/-- C6 witness: double Ctrl+C over a non-empty buffer propagates the
interrupt. -/
theorem C6_double_interrupt_witness :
    (eventLoop ('\x03' :: '\x03' :: [])
        (get_multiline_input "" ['a', 'b'] [] none).m).outcome = .interrupted ∧
    Outcome.interrupted ≠ Outcome.paletteExit ∧
    Outcome.interrupted ≠ Outcome.emptyCancelled :=
  C6_double_interrupt (get_multiline_input "" ['a', 'b'] [] none).m []
    (by decide) (by decide)

/-- C8: a slash byte arriving when the buffer is empty (and the loop is
not mid-escape-sequence) invokes the palette hook exactly once; a slash
arriving on a non-empty buffer is appended as a literal character and
the hook is not invoked; and whenever the hook signals "exit",
`read_line` returns null (the palette-exit outcome) immediately,
regardless of the remaining input. -/
theorem C8_slash_palette (m : M) (q : List HookRes) (rest : List Char)
    (hf : m.ed.faultAt = none) (hpb : m.ed.pendingBracket = false) :
    (m.ed.buffer = [] →
      (eventLoop ['/'] m).m.ed.hookCalls = m.ed.hookCalls + 1) ∧
    (m.ed.buffer ≠ [] →
      (eventLoop ['/'] m).m.ed.hookCalls = m.ed.hookCalls ∧
      (eventLoop ['/'] m).m.ed.buffer = m.ed.buffer ++ ['/']) ∧
    (m.ed.buffer = [] → m.ed.hookQueue = .exit :: q →
      (eventLoop ('/' :: rest) m).outcome = .paletteExit) := by
  refine ⟨?_, ?_, ?_⟩
  · intro hb
    by_cases hpe : m.ed.pendingEsc = true <;>
      by_cases hcc : m.ed.ctrlC = true <;>
        by_cases her : m.ed.escReset = true <;>
          cases hq : m.ed.hookQueue with
          | nil =>
            simp +decide [eventLoop, tick, processByte, normalHandle, dispatchKey,
              escLatchReset, ctrlLatchReset, showEscHint, emitR, resetCtrl, resetEscHelp,
              printHelp, clearInputRedraw, popHook, hf, hpb, hpe, hcc, her, hb, hq]
          | cons r q' =>
            cases r <;>
              simp +decide [eventLoop, tick, processByte, normalHandle, dispatchKey,
                escLatchReset, ctrlLatchReset, showEscHint, emitR, resetCtrl, resetEscHelp,
                printHelp, clearInputRedraw, popHook, hf, hpb, hpe, hcc, her, hb, hq]
  · intro hb
    by_cases hpe : m.ed.pendingEsc = true <;>
      by_cases hcc : m.ed.ctrlC = true <;>
        by_cases her : m.ed.escReset = true <;>
          simp +decide [eventLoop, tick, processByte, normalHandle, dispatchKey,
            escLatchReset, ctrlLatchReset, showEscHint, emitR, resetCtrl, resetEscHelp,
            printHelp, clearInputRedraw, appendSync, InputHistory.reset_position,
            hf, hpb, hpe, hcc, her, hb]
  · intro hb hq
    by_cases hpe : m.ed.pendingEsc = true <;>
      by_cases hcc : m.ed.ctrlC = true <;>
        by_cases her : m.ed.escReset = true <;>
          simp +decide [eventLoop, tick, processByte, normalHandle, dispatchKey,
            escLatchReset, ctrlLatchReset, showEscHint, emitR, resetCtrl, resetEscHelp,
            printHelp, clearInputRedraw, popHook, hf, hpb, hpe, hcc, her, hb, hq]

/-- C8 witness: a leading slash on the fresh empty buffer invokes the
hook once, and with an "exit" answer the editor returns null. -/
theorem C8_slash_palette_witness :
    ((eventLoop ['/'] (get_multiline_input "" [] [HookRes.exit] none).m).m.ed.hookCalls =
      (get_multiline_input "" [] [HookRes.exit] none).m.ed.hookCalls + 1) ∧
    (eventLoop ('/' :: ['z']) (get_multiline_input "" [] [HookRes.exit] none).m).outcome =
      .paletteExit :=
  ⟨(C8_slash_palette (get_multiline_input "" [] [HookRes.exit] none).m [] ['z']
      (by decide) (by decide)).1 (by decide),
   (C8_slash_palette (get_multiline_input "" [] [HookRes.exit] none).m [] ['z']
      (by decide) (by decide)).2.2 (by decide) (by decide)⟩
